import Mathlib

/-!
# A verification development for `clop`

`clop` is a small command-line tool (one source file, `clop.js`) that selects
files from a directory tree by glob pattern or by an inline `tags: #name`
annotation, concatenates their contents with `===== path =====` delimiters and
places the result on the clipboard.

This file gives a shallow embedding of the tool's selection pipeline and of the
fragments of its library collaborators that the pipeline exercises:

* a model of the `glob` library's matching (segment wildcards, `**` globstar,
  bash-style brace alternation where a braced group without a comma is NOT
  expanded and stays literal, and the default `dot:false` rule under which a
  wildcard never matches a path component that starts with `.`);
* a model of the `ignore` library restricted to the rule shapes the tool
  feeds it (single-component patterns such as `node_modules` or the lines of a
  `.gitignore` without slashes or `!`-negation: such a rule excludes a path
  when it matches any path component);
* a model of JavaScript `RegExp` construction and `test` for the dialect the
  tag scanner can produce (literal characters, `.` with the dotAll flag,
  grouping, alternation and the `*`, `+`, `?` quantifiers; an ill-formed
  pattern makes construction fail, which the scanner's `try` swallows);
* the selection pipeline of `main` itself: argument classification, the
  `.gitignore` handling (including the fact that the source destructures the
  key `ignoreGitignore`, which is not a key of the parsed argv object, whose
  option is registered as `nogitignore`), the tag-scanning universe, the
  inclusion and exclusion phases, and the aggregation/reporting step.

A filesystem snapshot is a list of file entries in the order the underlying
enumeration yields them; an entry whose content is `none` stands for a file
that `readFileSync` fails on (permissions, decode failure, vanished file).
All machine strings are modelled as Lean `String`s; the inputs exercised are
ASCII, where JavaScript's UTF-16 code-unit length and the model's character
length agree.
-/

/-! ## Glob matching (model of the `glob`/`minimatch` fragment used) -/

/-- Matching of one glob segment against one path segment, character by
character: `*` matches any (possibly empty) run of characters, `?` matches
exactly one character, anything else is literal.  Fuelled so that the
function is structurally recursive and kernel-reducible. -/
def segMatchAux : Nat → List Char → List Char → Bool
  | 0, _, _ => false
  | _ + 1, [], [] => true
  | _ + 1, [], _ :: _ => false
  | f + 1, '*' :: ps, s =>
    segMatchAux f ps s ||
      (match s with
       | [] => false
       | _ :: t => segMatchAux f ('*' :: ps) t)
  | _ + 1, _ :: _, [] => false
  | f + 1, p :: ps, c :: t => (p = '?' || p = c) && segMatchAux f ps t

/-- Segment matching with enough fuel for full exploration. -/
def segMatch (pat seg : List Char) : Bool :=
  segMatchAux (pat.length + seg.length + 1) pat seg

/-- Is the first list an initial segment of the second?  (A structural
re-implementation of `String.startsWith`, kept kernel-reducible.) -/
def listStarts : List Char → List Char → Bool
  | [], _ => true
  | _ :: _, [] => false
  | c :: cs, d :: ds => c = d && listStarts cs ds

/-- `s.startsWith pre`, kernel-reducible. -/
def strStarts (s pre : String) : Bool :=
  listStarts pre.toList s.toList

/-- Split a character list at every occurrence of `c` (the splitting
behaviour of `String.splitOn` with a one-character separator). -/
def splitCharsAux (c : Char) : List Char → List Char → List (List Char)
  | [], acc => [acc.reverse]
  | d :: rest, acc =>
    if d = c then acc.reverse :: splitCharsAux c rest []
    else splitCharsAux c rest (d :: acc)

/-- `s.splitOn (String.singleton c)`, kernel-reducible. -/
def splitOnChar (c : Char) (s : String) : List String :=
  (splitCharsAux c s.toList []).map String.mk

/-- `String.intercalate sep`, kernel-reducible. -/
def strJoin (sep : String) : List String → String
  | [] => ""
  | x :: xs =>
    match xs with
    | [] => x
    | _ :: _ => x ++ sep ++ strJoin sep xs

/-- The `dot:false` rule of `minimatch`: a path segment that starts with `.`
is only matched by a pattern segment that itself starts with a literal `.`.
With `dot := true` there is no such restriction. -/
def segMatchD (dot : Bool) (pat seg : String) : Bool :=
  if !dot && strStarts seg "." && !(strStarts pat ".") then false
  else segMatch pat.toList seg.toList

/-- Path matching over slash-split segment lists.  A `**` pattern segment
matches zero or more path segments (under `dot := false` it does not walk
into segments that start with `.`).  Fuelled for kernel reducibility; each
recursive call shrinks `pats.length + segs.length`. -/
def globPathAux (dot : Bool) : Nat → List String → List String → Bool
  | 0, _, _ => false
  | _ + 1, [], [] => true
  | _ + 1, [], _ :: _ => false
  | f + 1, p :: ps, segs =>
    if p = "**" then
      globPathAux dot f ps segs ||
        (match segs with
         | [] => false
         | s :: rest =>
           (dot || !(strStarts s ".")) && globPathAux dot f (p :: ps) rest)
    else
      match segs with
      | [] => false
      | s :: rest => segMatchD dot p s && globPathAux dot f ps rest

/-- Path matching with enough fuel. -/
def globPath (dot : Bool) (pats segs : List String) : Bool :=
  globPathAux dot (pats.length + segs.length + 1) pats segs

/-- Bash-style brace expansion for the single shape the tool produces: an
outermost `{...}` containing at least one comma splits into its alternatives;
a braced group without a comma is NOT expanded (so it stays a literal part of
the pattern, exactly as in the `brace-expansion` package), and a pattern
without outer braces is returned unchanged. -/
def braceExpand (s : String) : List String :=
  let cs := s.toList
  if cs.head? = some '\x7b' && cs.getLast? = some '\x7d' && cs.contains ',' then
    (splitCharsAux ',' (cs.drop 1).dropLast []).map String.mk
  else [s]

/-- Full pattern-against-path test: brace-expand, split both the pattern and
the path on `/`, and try each alternative. -/
def matchGlob (dot : Bool) (pat p : String) : Bool :=
  (braceExpand pat).any fun q =>
    globPath dot (splitOnChar '/' q) (splitOnChar '/' p)

/-! ## The `ignore` library (fragment used by the tool) -/

/-- `ignore()` rule-file parsing: one rule per line, skipping empty lines and
`#` comments (the shapes the tool feeds it;  `!`-negation and slash-anchored
rules do not occur in the inputs modelled here). -/
def parseGitignoreRules (content : String) : List String :=
  (splitOnChar '\n' content).filter fun l => !l.toList.isEmpty && !(strStarts l "#")

/-- A single-component ignore rule (no `/`) excludes a path when it matches
any path component — matching the component that names a directory excludes
everything below it.  `*` in a rule does not cross `/`. -/
def igRuleMatches (rule p : String) : Bool :=
  (splitOnChar '/' p).any fun seg => segMatch rule.toList seg.toList

/-- `ig.ignores(path)`: some rule matches. -/
def ignores (rules : List String) (p : String) : Bool :=
  rules.any fun r => igRuleMatches r p

/-! ## JavaScript `RegExp` (dialect reachable from the tag scanner) -/

/-- Regular expressions: empty language, empty string, a literal character,
`.` (with the `s` dotAll flag: any character), concatenation, alternation,
Kleene star. -/
inductive RE where
  | emp : RE
  | eps : RE
  | tok : Char → RE
  | dot : RE
  | seq : RE → RE → RE
  | alt : RE → RE → RE
  | star : RE → RE
deriving Repr, DecidableEq

/-- Nullability: does the regex accept the empty string? -/
def reNullable : RE → Bool
  | .emp => false
  | .eps => true
  | .tok _ => false
  | .dot => false
  | .seq a b => reNullable a && reNullable b
  | .alt a b => reNullable a || reNullable b
  | .star _ => true

/-- Brzozowski derivative by one character. -/
def reDeriv : RE → Char → RE
  | .emp, _ => .emp
  | .eps, _ => .emp
  | .tok c, d => if c = d then .eps else .emp
  | .dot, _ => .eps
  | .seq a b, d =>
    if reNullable a then .alt (.seq (reDeriv a d) b) (reDeriv b d)
    else .seq (reDeriv a d) b
  | .alt a b, d => .alt (reDeriv a d) (reDeriv b d)
  | .star a, d => .seq (reDeriv a d) (.star a)

/-- Does the regex accept some initial segment of the character list? -/
def reHead (r : RE) : List Char → Bool
  | [] => reNullable r
  | c :: rest => reNullable r || reHead (reDeriv r c) rest

/-- `RegExp.test`: does the regex match somewhere inside the text? -/
def reSearch (r : RE) : List Char → Bool
  | [] => reNullable r
  | c :: rest => reHead r (c :: rest) || reSearch r rest

mutual

/-- Parse an alternation `cat ('|' alt)?`. -/
def pAlt : Nat → List Char → Option (RE × List Char)
  | 0, _ => none
  | f + 1, cs =>
    match pCat f cs with
    | none => none
    | some (r, rest) =>
      match rest with
      | '|' :: rest2 =>
        match pAlt f rest2 with
        | none => none
        | some (r2, rest3) => some (.alt r r2, rest3)
      | _ => some (r, rest)

/-- Parse a concatenation of quantified atoms, stopping at `)` or `|`. -/
def pCat : Nat → List Char → Option (RE × List Char)
  | 0, _ => none
  | f + 1, cs =>
    match cs with
    | [] => some (.eps, [])
    | ')' :: _ => some (.eps, cs)
    | '|' :: _ => some (.eps, cs)
    | _ =>
      match pRep f cs with
      | none => none
      | some (r, rest) =>
        match pCat f rest with
        | none => none
        | some (r2, rest2) => some (.seq r r2, rest2)

/-- Parse one atom with an optional postfix quantifier (a second quantifier
in a row is a syntax error, as in JavaScript). -/
def pRep : Nat → List Char → Option (RE × List Char)
  | 0, _ => none
  | f + 1, cs =>
    match pAtom f cs with
    | none => none
    | some (r, rest) =>
      match rest with
      | '*' :: rest2 => some (.star r, rest2)
      | '+' :: rest2 => some (.seq r (.star r), rest2)
      | '?' :: rest2 => some (.alt r .eps, rest2)
      | _ => some (r, rest)

/-- Parse an atom: a parenthesised group (an unterminated group is a syntax
error), `.`, an escaped character, or a literal character; a quantifier with
nothing to repeat, a stray `)` or a trailing `\` is a syntax error. -/
def pAtom : Nat → List Char → Option (RE × List Char)
  | 0, _ => none
  | f + 1, cs =>
    match cs with
    | [] => none
    | '(' :: rest =>
      match pAlt f rest with
      | none => none
      | some (r, rest2) =>
        match rest2 with
        | ')' :: rest3 => some (r, rest3)
        | _ => none
    | '.' :: rest => some (.dot, rest)
    | '\\' :: c :: rest => some (.tok c, rest)
    | '\\' :: [] => none
    | c :: rest =>
      if c = ')' || c = '|' || c = '*' || c = '+' || c = '?' then none
      else some (.tok c, rest)

end

/-- `new RegExp(source, 's')`: parse the whole source or fail (the
constructor throws on a syntax error). -/
def parseRegExp (source : String) : Option RE :=
  let cs := source.toList
  match pAlt (4 * cs.length + 8) cs with
  | some (r, []) => some r
  | _ => none

/-- Literal (non-regex) substring containment, used to state that a text does
not contain a tag name literally. -/
def strContainsAux : Nat → List Char → List Char → Bool
  | 0, _, _ => false
  | _ + 1, needle, [] => needle.isEmpty
  | f + 1, needle, c :: rest =>
    segMatchAux (needle.length + 1) needle (List.take needle.length (c :: rest)) ||
      strContainsAux f needle rest

/-- Does `s` contain `sub` as a literal substring? -/
def strContains (s sub : String) : Bool :=
  strContainsAux (s.toList.length + 1) sub.toList s.toList

/-! ## The filesystem snapshot and the tool's data -/

/-- One file of the snapshot: its path relative to the working directory
(forward slashes) and its text, `none` when reading it fails. -/
structure FileEntry where
  path : String
  content : Option String
deriving Repr, DecidableEq

/-- A filesystem snapshot: the optional `.gitignore` of the working directory
and the files in the order the directory walk enumerates them. -/
structure FS where
  gitignore : Option String
  files : List FileEntry
deriving Repr, DecidableEq

/-- The parsed command line as yargs delivers it: the positional patterns
(`argv._`, stringified), the `--not` values, and the two boolean flags.  The
keys of this object are exactly `_`, `not`, `nogitignore` and `verbose`. -/
structure Argv where
  positional : List String
  notPatterns : List String
  nogitignore : Bool
  verbose : Bool
deriving Repr, DecidableEq

/-- The observable outcome of a run: the stdout lines (colour codes elided),
the clipboard payload (`none` when the clipboard is never written) and the
process exit status. -/
structure RunResult where
  stdout : List String
  clipboard : Option String
  exitCode : Nat
deriving Repr, DecidableEq

/-- `fs.readFileSync(path, 'utf8')` against the snapshot: the first entry
with the given path, `none` when it is absent or unreadable. -/
def readFile (fsys : FS) (p : String) : Option String :=
  match fsys.files.find? (fun e => e.path == p) with
  | none => none
  | some e => e.content

/-- `fileHasTag(filePath, tag)`: read the file, build
`new RegExp("tags:.*#" + tag, 's')` and test it; any failure inside the
`try` (unreadable file or invalid regex source) yields `false`. -/
def fileHasTag (fsys : FS) (filePath tag : String) : Bool :=
  match readFile fsys filePath with
  | none => false
  | some content =>
    match parseRegExp ("tags:.*#" ++ tag) with
    | none => false
    | some r => reSearch r content.toList

/-! ## Argument classification (`main`, after yargs parsing) -/

/-- Positional arguments that do not start with `+` are inclusion globs. -/
def inclusionGlobs (argv : Argv) : List String :=
  argv.positional.filter fun p => !(strStarts p "+")

/-- Positional arguments starting with `+`, with the `+` stripped, are
inclusion tags. -/
def inclusionTags (argv : Argv) : List String :=
  (argv.positional.filter fun p => strStarts p "+").map fun t =>
    String.mk (t.toList.drop 1)

/-- `--not` values that do not start with `+` are exclusion globs. -/
def exclusionGlobs (argv : Argv) : List String :=
  argv.notPatterns.filter fun p => !(strStarts p "+")

/-- `--not` values starting with `+`, stripped, are exclusion tags. -/
def exclusionTags (argv : Argv) : List String :=
  (argv.notPatterns.filter fun p => strStarts p "+").map fun t =>
    String.mk (t.toList.drop 1)

/-! ## `.gitignore` handling -/

/-- JavaScript truthiness of an optional boolean (`undefined` is falsy). -/
def truthy : Option Bool → Bool
  | none => false
  | some b => b

/-- The source reads `const { _, not: notPatterns, ignoreGitignore, verbose }
= argv;`.  The parsed argv object has keys `_`, `not`, `nogitignore` and
`verbose` — the option is registered as `nogitignore` — so the destructured
`ignoreGitignore` is `undefined` whatever the command line said. -/
def ignoreGitignoreOf (_argv : Argv) : Option Bool := none

/-- The ignore ruleset `ig`: when `!ignoreGitignore` (which is always the
case, `ignoreGitignore` being `undefined`), the `.gitignore` of the working
directory is added if it exists; `node_modules` is always added last. -/
def igRulesOf (argv : Argv) (fsys : FS) : List String :=
  (if !truthy (ignoreGitignoreOf argv) then
    match fsys.gitignore with
    | some content => parseGitignoreRules content
    | none => []
  else []) ++ ["node_modules"]

/-! ## The tag-scanning universe and glob resolution -/

/-- `glob.sync('**/*', { nodir: true, dot: true })`: every file of the
snapshot (the snapshot holds only files), in enumeration order. -/
def universeFiles (fsys : FS) : List String :=
  (fsys.files.map FileEntry.path).filter fun p => matchGlob true "**/*" p

/-- `allFiles.filter(file => !ig.ignores(path.relative(cwd, file)))`; the
paths are already relative, so `path.relative` is the identity here. -/
def accessibleFiles (argv : Argv) (fsys : FS) : List String :=
  (universeFiles fsys).filter fun p => !ignores (igRulesOf argv fsys) p

/-- The `**/`-prefixing rule: a pattern without `/` is made recursive. -/
def effGlob (p : String) : String :=
  if p.toList.contains '/' then p else "**/" ++ p

/-- The built-in dependency-cache exclusion passed to every resolving
`glob.sync` call: `ignore: '**/node_modules/**'` (glob applies ignore
patterns in dot mode). -/
def nmIgnored (p : String) : Bool :=
  matchGlob true "**/node_modules/**" p

/-- `glob.sync(pattern, { ignore: '**/node_modules/**' })` against the
snapshot: the matching paths in enumeration order.  The `dot` option is not
set, so it is the default `false`. -/
def globResolve (fsys : FS) (pat : String) : List String :=
  (fsys.files.map FileEntry.path).filter fun p =>
    matchGlob false pat p && !nmIgnored p

/-! ## The inclusion and exclusion phases -/

/-- `Set.add`: append the element unless it is already present (JavaScript
sets keep first-insertion order). -/
def addUnique (l : List String) (x : String) : List String :=
  if x ∈ l then l else l ++ [x]

/-- Add many elements in order. -/
def addAll (l : List String) (xs : List String) : List String :=
  xs.foldl addUnique l

/-- One step of the inclusion-glob loop over the state
(matched set, unmatched-glob set): resolve the `**/`-normalised pattern; when
it found anything, add the results and drop the pattern from the unmatched
set. -/
def globStep (fsys : FS) (st : List String × List String) (pat : String) :
    List String × List String :=
  let found := globResolve fsys (effGlob pat)
  if found.isEmpty then st
  else (addAll st.1 found, st.2.erase pat)

/-- The inclusion-glob phase: fold the loop over the patterns, starting from
an empty matched set and `new Set(inclusionGlobs)` as the unmatched set. -/
def globPhase (fsys : FS) (globs : List String) : List String × List String :=
  globs.foldl (globStep fsys) ([], addAll [] globs)

/-- The inclusion-tag phase: walk the ignore-filtered universe and add every
file for which some inclusion tag tests positive (the inner loop breaks on
the first match, which is membership-equivalent to `any`). -/
def tagPhase (fsys : FS) (tags : List String) (files : List String)
    (acc : List String) : List String :=
  files.foldl
    (fun acc f => if tags.any (fun t => fileHasTag fsys f t) then addUnique acc f else acc)
    acc

/-- The candidate set `matchedFiles`, as a first-insertion-ordered list. -/
def matchedFiles (argv : Argv) (fsys : FS) : List String :=
  tagPhase fsys (inclusionTags argv) (accessibleFiles argv fsys)
    (globPhase fsys (inclusionGlobs argv)).1

/-- The inclusion globs that matched nothing, in set insertion order. -/
def unmatchedGlobsOf (argv : Argv) (fsys : FS) : List String :=
  (globPhase fsys (inclusionGlobs argv)).2

/-- The batched exclusion-glob resolution: one `glob.sync` call on the
combined alternation `'{' + effectiveExclusionGlobs.join(',') + '}'`. -/
def exclusionGlobSet (fsys : FS) (globs : List String) : List String :=
  globResolve fsys ("\x7b" ++ strJoin "," (globs.map effGlob) ++ "\x7d")

/-- Resolving each exclusion glob independently and taking the union: the
semantics the batched call is supposed to refine. -/
def unionExclusionSet (fsys : FS) (globs : List String) : List String :=
  (fsys.files.map FileEntry.path).filter fun p =>
    (globs.any fun g => matchGlob false (effGlob g) p) && !nmIgnored p

/-- `finalFiles`: the candidate list, with the batched exclusion-glob set
removed (only when exclusion globs were given) and then the files carrying
some exclusion tag removed (only when exclusion tags were given). -/
def finalSelection (argv : Argv) (fsys : FS) : List String :=
  let m := matchedFiles argv fsys
  let m2 :=
    if (exclusionGlobs argv).isEmpty then m
    else m.filter fun f => !(exclusionGlobSet fsys (exclusionGlobs argv)).contains f
  if (exclusionTags argv).isEmpty then m2
  else m2.filter fun f => !(exclusionTags argv).any fun t => fileHasTag fsys f t

/-! ## Reporting and aggregation -/

/-- The exponent of the byte-size unit: how often 1024 divides into the
count, i.e. `Math.floor(Math.log(bytes) / Math.log(1024))` computed exactly.
Fuelled structural recursion. -/
def unitIndexAux : Nat → Nat → Nat
  | 0, _ => 0
  | f + 1, b => if b < 1024 then 0 else unitIndexAux f (b / 1024) + 1

/-- Largest `i` with `1024 ^ i ≤ bytes` (for `bytes ≥ 1`). -/
def unitIndex (bytes : Nat) : Nat :=
  unitIndexAux bytes bytes

/-- `parseFloat(x.toFixed(2))` for the exact value `hundredths / 100`:
two-decimal rounding already applied, trailing zeros dropped. -/
def twoDecimalString (hundredths : Nat) : String :=
  let ip := hundredths / 100
  let fr := hundredths % 100
  if fr = 0 then toString ip
  else if fr % 10 = 0 then toString ip ++ "." ++ toString (fr / 10)
  else if fr < 10 then toString ip ++ ".0" ++ toString fr
  else toString ip ++ "." ++ toString fr

/-- `formatBytes`: `'0B'` for zero, otherwise the value scaled by the largest
fitting power of 1024, printed to at most two decimals, with the unit letter
from `['b','k','M','G','T']` (out-of-range indexing yields `undefined`, which
string concatenation renders as `"undefined"`). -/
def formatBytes (bytes : Nat) : String :=
  if bytes = 0 then "0B"
  else
    let i := unitIndex bytes
    let p := 1024 ^ i
    let hundredths := (bytes * 100 + p / 2) / p
    twoDecimalString hundredths ++ (["b", "k", "M", "G", "T"].getD i "undefined")

/-- The aggregation loop over the final files: per-file progress lines, the
delimited buffer, the running byte total, and whether every read succeeded.
A file that can no longer be read makes the run abort (the `catch` at the
bottom of `main`); files after the failure are not processed. -/
def aggRun (fsys : FS) (files : List String) : List String × String × Nat × Bool :=
  files.foldl
    (fun acc f =>
      let (lines, buf, total, ok) := acc
      if !ok then acc
      else
        match readFile fsys f with
        | none => (lines, buf, total, false)
        | some c =>
          (lines ++ ["📄 " ++ f ++ " (" ++ formatBytes c.length ++ ")"],
           buf ++ "===== " ++ f ++ " =====\n" ++ c ++ "\n\n",
           total + c.length, ok))
    ([], "", 0, true)

/-- The unmatched-pattern warning, absent when every inclusion glob matched. -/
def warnLines (argv : Argv) (fsys : FS) : List String :=
  let u := unmatchedGlobsOf argv fsys
  if u.isEmpty then []
  else ["⚠️ The following patterns did not match any files: " ++ strJoin ", " u]

/-- The whole run of `main` after successful argument parsing: warnings, the
zero-match early return (exit 0, clipboard untouched), or aggregation
followed by the clipboard write and the success line, or the hard-error path
(exit 1, clipboard untouched). -/
def clopMain (argv : Argv) (fsys : FS) : RunResult :=
  let final := finalSelection argv fsys
  let warns := warnLines argv fsys
  if final.isEmpty then
    { stdout := warns ++ ["⚠️ No files matched the given criteria."],
      clipboard := none, exitCode := 0 }
  else
    let (lines, buf, total, ok) := aggRun fsys final
    if ok then
      { stdout := warns ++ lines ++
          ["✅ Copied " ++ toString final.length ++ " files to the clipboard (" ++
            formatBytes total ++ ")"],
        clipboard := some buf, exitCode := 0 }
    else
      { stdout := warns ++ lines ++ ["❌ An unexpected error occurred."],
        clipboard := none, exitCode := 1 }

/-! ## Concrete scenarios used by the theorems -/

/-- A working directory whose `.gitignore` lists `secret.txt`, holding that
very file, which carries the tag `secret`. -/
def fsC1 : FS := ⟨some "secret.txt", [⟨"secret.txt", some "tags: #secret\npassword"⟩]⟩

/-- `clop --nogitignore +secret`. -/
def argvC1 : Argv := ⟨["+secret"], [], true, false⟩

/-- A TypeScript source and its test file. -/
def fsC2 : FS := ⟨none, [⟨"a.ts", some "let x = 1"⟩, ⟨"a.test.ts", some "test()"⟩]⟩

/-- `clop "*.ts" --not "*.test.ts"` (the tool's own usage example). -/
def argvC2 : Argv := ⟨["*.ts"], ["*.test.ts"], false, false⟩

/-- A file tagged `t`. -/
def entA : FileEntry := ⟨"a.txt", some "tags: #t\nA"⟩

/-- Another file tagged `t`. -/
def entB : FileEntry := ⟨"b.txt", some "tags: #t\nB"⟩

/-- A snapshot enumerated `a.txt` before `b.txt`. -/
def fsC3a : FS := ⟨none, [entA, entB]⟩

/-- The same snapshot enumerated in the opposite order. -/
def fsC3b : FS := ⟨none, [entB, entA]⟩

/-- `clop +t`. -/
def argvC3 : Argv := ⟨["+t"], [], false, false⟩

/-- A snapshot holding one hidden file. -/
def fsC4 : FS := ⟨none, [⟨".hidden.txt", some "x"⟩]⟩

/-- `clop "*.txt"`. -/
def argvC4 : Argv := ⟨["*.txt"], [], false, false⟩

/-- A snapshot holding one plain text file. -/
def fsC5 : FS := ⟨none, [⟨"a.txt", some "hi"⟩]⟩

/-- `clop "*.txt" --not "*.txt"`: the identical pattern included and
excluded. -/
def argvC5 : Argv := ⟨["*.txt"], ["*.txt"], false, false⟩

/-- A snapshot with one unreadable file. -/
def fsC7 : FS := ⟨none, [⟨"bin.dat", none⟩]⟩

/-- A file whose text contains `#axc` after a `tags:` marker but nowhere the
literal substring `#a.c`. -/
def fsC9 : FS := ⟨none, [⟨"f.txt", some "tags: #axc"⟩]⟩

/-- An empty snapshot. -/
def fsC10 : FS := ⟨none, []⟩

/-- `clop "*.xyz"` — matching nothing. -/
def argvC10 : Argv := ⟨["*.xyz"], [], false, false⟩

/-! ## Claim theorems: concrete evaluations -/

/-- Claim C1 (code bug) — the spec says `--nogitignore` makes the run skip
the project ignore file, but the source destructures `ignoreGitignore` (not a
key of argv, whose option is `nogitignore`), so the flag has no effect: the
ignore ruleset is the same whatever the flag, and with `--nogitignore` a
tagged file listed in `.gitignore` is still filtered out of the tag-scanning
universe, making the run match nothing. -/
theorem clop_nogitignore_has_no_effect :
    (∀ (pos np : List String) (v : Bool) (fsys : FS),
      igRulesOf ⟨pos, np, true, v⟩ fsys = igRulesOf ⟨pos, np, false, v⟩ fsys) ∧
    fileHasTag fsC1 "secret.txt" "secret" = true ∧
    clopMain argvC1 fsC1 =
      ⟨["⚠️ No files matched the given criteria."], none, 0⟩ := by
  refine ⟨fun _ _ _ _ => rfl, by decide, by decide⟩

/-- Claim C2 (code bug) — batching the exclusion globs into one
`{...}`-alternation is NOT equivalent to the union of independent resolutions
when exactly one exclusion glob is given: brace expansion needs a comma, so
the braces stay literal, the batched resolution is empty, and the tool's own
usage example `clop "*.ts" --not "*.test.ts"` fails to exclude the test
file. -/
theorem clop_batched_exclusion_differs_from_union :
    exclusionGlobSet fsC2 ["*.test.ts"] = [] ∧
    unionExclusionSet fsC2 ["*.test.ts"] = ["a.test.ts"] ∧
    finalSelection argvC2 fsC2 = ["a.ts", "a.test.ts"] := by
  refine ⟨by decide, by decide, by decide⟩

/-- Claim C4, counterexample — `*.txt` (normalised to `**/*.txt`) would match
the hidden file `.hidden.txt` if wildcards matched dot segments (the same
pattern under `dot := true` does match), yet glob resolution returns nothing
and the final selection is empty: the resolver runs with the default
`dot:false`. -/
theorem clop_hidden_file_not_matched_by_glob :
    matchGlob true "**/*.txt" ".hidden.txt" = true ∧
    globResolve fsC4 "**/*.txt" = [] ∧
    finalSelection argvC4 fsC4 = [] := by
  refine ⟨by decide, by decide, by decide⟩

/-- Claim C5 (code bug) — `a.txt` matches the (normalised) exclusion glob
`**/*.txt`, yet with the identical pattern as sole inclusion and sole
exclusion glob the file survives into the final selection, because the
batched single-pattern exclusion resolution matches nothing (see the brace
defect): exclusion does not always win. -/
theorem clop_exclusion_glob_fails_to_win :
    matchGlob false (effGlob "*.txt") "a.txt" = true ∧
    finalSelection argvC5 fsC5 = ["a.txt"] := by
  refine ⟨by decide, by decide⟩

/-- Claim C8 — byte-size formatting: 0 bytes is `0B`, 1024 bytes is `1k`,
1536 bytes is `1.5k` (base-1024 scaling by the largest unit whose scaled
value reaches 1, two-decimal rounding with trailing zeros dropped). -/
theorem clop_formatBytes_values :
    formatBytes 0 = "0B" ∧ formatBytes 1024 = "1k" ∧ formatBytes 1536 = "1.5k" := by
  refine ⟨by decide, by decide, by decide⟩

/-- Claim C9 — the tag name is spliced into the regex source unescaped: the
invalid source built from tag `foo(` makes `RegExp` construction throw, so
the scanner answers `false` for every file of every snapshot; and the
metacharacter tag `a.c` matches a file whose text contains `#axc` but never
the literal substring `#a.c`. -/
theorem clop_tag_name_is_regex :
    (∀ (fsys : FS) (p : String), fileHasTag fsys p "foo(" = false) ∧
    fileHasTag fsC9 "f.txt" "a.c" = true ∧
    strContains "tags: #axc" "#a.c" = false := by
  refine ⟨fun fsys p => ?_, by decide, by decide⟩
  unfold fileHasTag
  cases readFile fsys p with
  | none => rfl
  | some content =>
    have h : parseRegExp ("tags:.*#" ++ "foo(") = none := by decide
    rw [h]

/-- Claim C7 — the tag scanner fails closed: when the read fails, the answer
is `false` rather than an error, so a bulk scan never aborts on one
unreadable file. -/
theorem clop_tag_scan_fails_closed (fsys : FS) (p tag : String)
    (h : readFile fsys p = none) : fileHasTag fsys p tag = false := by
  unfold fileHasTag
  rw [h]

/-- Witness for C7 at a concrete unreadable file. -/
theorem clop_tag_scan_fails_closed_witness :
    readFile fsC7 "bin.dat" = none ∧ fileHasTag fsC7 "bin.dat" "x" = false :=
  ⟨rfl, clop_tag_scan_fails_closed fsC7 "bin.dat" "x" rfl⟩

/-- Claim C10 — when the final selection is empty the run prints the warning
lines and the zero-match warning, never writes the clipboard, prints no
per-file progress line and no success line, and exits with status zero. -/
theorem clop_empty_selection_stops_early (argv : Argv) (fsys : FS)
    (h : finalSelection argv fsys = []) :
    clopMain argv fsys =
      { stdout := warnLines argv fsys ++ ["⚠️ No files matched the given criteria."],
        clipboard := none, exitCode := 0 } := by
  simp [clopMain, h]

/-- Witness for C10 at a concrete zero-match invocation. -/
theorem clop_empty_selection_stops_early_witness :
    finalSelection argvC10 fsC10 = [] ∧
    clopMain argvC10 fsC10 =
      { stdout := warnLines argvC10 fsC10 ++ ["⚠️ No files matched the given criteria."],
        clipboard := none, exitCode := 0 } :=
  ⟨rfl, clop_empty_selection_stops_early argvC10 fsC10 rfl⟩

/-- Claim C3, counterexample — the same snapshot enumerated in two orders
(a permutation of the same file entries) produces different clipboard
contents and different final file lists: no order normalisation happens
before output. -/
theorem clop_output_depends_on_enumeration_order :
    fsC3a.files.Perm fsC3b.files ∧
    (clopMain argvC3 fsC3a).clipboard ≠ (clopMain argvC3 fsC3b).clipboard ∧
    finalSelection argvC3 fsC3a ≠ finalSelection argvC3 fsC3b :=
  ⟨List.Perm.swap entB entA [], by decide, by decide⟩

/-- Under `dot := false`, a path whose first component is hidden (starts with
`.`) is matched by no pattern whose components all lack a leading literal
dot — in particular not by any chain of `*`/`**` wildcards. -/
theorem globPathAux_hidden_head (f : Nat) : ∀ (ps : List String) (s : String)
    (segs : List String), strStarts s "." = true →
    (∀ q ∈ ps, strStarts q "." = false) →
    globPathAux false f ps (s :: segs) = false := by
  induction f with
  | zero => intro ps s segs _ _; rfl
  | succ f ih =>
    intro ps s segs hs hp
    cases ps with
    | nil => rfl
    | cons p ps' =>
      have hph : strStarts p "." = false := hp p (List.mem_cons_self p ps')
      have hpt : ∀ q ∈ ps', strStarts q "." = false := fun q hq =>
        hp q (List.mem_cons_of_mem p hq)
      by_cases hpp : p = "**"
      · simp [globPathAux, hpp, hs, ih ps' s segs hs hpt]
      · simp [globPathAux, hpp, segMatchD, hs, hph]

/-- Claim C4, amended — glob resolution runs with the default `dot:false`:
a path whose leading component is hidden is matched by no pattern whose
components all lack a leading literal dot (so wildcard patterns such as
`**/*.txt` never reach it), while the tag-scanning universe, enumerated with
`dot:true`, does include the hidden file. -/
theorem clop_glob_resolution_excludes_hidden :
    (∀ (ps : List String) (s : String) (segs : List String),
      strStarts s "." = true → (∀ q ∈ ps, strStarts q "." = false) →
      globPath false ps (s :: segs) = false) ∧
    universeFiles fsC4 = [".hidden.txt"] ∧
    accessibleFiles argvC4 fsC4 = [".hidden.txt"] := by
  refine ⟨fun ps s segs hs hp => globPathAux_hidden_head _ ps s segs hs hp,
    by decide, by decide⟩

/-- Witness for the amended C4 at the counterexample's pattern and path. -/
theorem clop_glob_resolution_excludes_hidden_witness :
    strStarts ".hidden.txt" "." = true ∧
    globPath false ["**", "*.txt"] [".hidden.txt"] = false :=
  ⟨by decide,
    clop_glob_resolution_excludes_hidden.1 ["**", "*.txt"] ".hidden.txt" []
      (by decide) (by decide)⟩

/-- Membership in `Set.add`. -/
theorem mem_addUnique {l : List String} {x y : String} :
    y ∈ addUnique l x ↔ y ∈ l ∨ y = x := by
  unfold addUnique
  split
  · rename_i h
    exact ⟨Or.inl, fun hy => hy.elim id fun e => e ▸ h⟩
  · simp

/-- `Set.add` keeps the backing list duplicate-free. -/
theorem nodup_addUnique {l : List String} {x : String} (h : l.Nodup) :
    (addUnique l x).Nodup := by
  unfold addUnique
  split
  · exact h
  · rename_i hx
    simp [List.nodup_append, h, hx]

/-- Membership after adding many elements. -/
theorem mem_addAll {xs : List String} : ∀ {l : List String} {y : String},
    y ∈ addAll l xs ↔ y ∈ l ∨ y ∈ xs := by
  induction xs with
  | nil => intro l y; simp [addAll]
  | cons x xs ih =>
    intro l y
    rw [show addAll l (x :: xs) = addAll (addUnique l x) xs from rfl, ih,
      mem_addUnique, List.mem_cons]
    tauto

/-- Adding many elements keeps the list duplicate-free. -/
theorem nodup_addAll {xs : List String} : ∀ {l : List String}, l.Nodup →
    (addAll l xs).Nodup := by
  induction xs with
  | nil => intro l h; exact h
  | cons x xs ih => intro l h; exact ih (nodup_addUnique h)

/-- Membership in the matched set built by the inclusion-glob loop: a path is
there exactly when it was already in the initial state or some inclusion glob
resolves to it. -/
theorem mem_globPhase_fold (fsys : FS) : ∀ (globs : List String)
    (st : List String × List String) (y : String),
    y ∈ (globs.foldl (globStep fsys) st).1 ↔
      y ∈ st.1 ∨ ∃ g ∈ globs, y ∈ globResolve fsys (effGlob g) := by
  intro globs
  induction globs with
  | nil => intro st y; simp
  | cons g gs ih =>
    intro st y
    rw [List.foldl_cons, ih]
    by_cases hf : (globResolve fsys (effGlob g)).isEmpty
    · have hnil : globResolve fsys (effGlob g) = [] := by
        simpa [List.isEmpty_iff] using hf
      simp [globStep, hf, hnil]
    · simp only [globStep, hf, if_neg, Bool.false_eq_true, not_false_iff,
        if_false, mem_addAll]
      simp
      tauto

/-- The matched set built by the inclusion-glob loop is duplicate-free. -/
theorem nodup_globPhase_fold (fsys : FS) : ∀ (globs : List String)
    (st : List String × List String), st.1.Nodup →
    ((globs.foldl (globStep fsys) st).1).Nodup := by
  intro globs
  induction globs with
  | nil => intro st h; exact h
  | cons g gs ih =>
    intro st h
    rw [List.foldl_cons]
    apply ih
    by_cases hf : (globResolve fsys (effGlob g)).isEmpty
    · simpa [globStep, hf] using h
    · simpa [globStep, hf] using nodup_addAll h

/-- Membership after the inclusion-tag walk: a path is there exactly when it
was already in the accumulator or it is a walked file carrying one of the
requested tags. -/
theorem mem_tagPhase (fsys : FS) (tags : List String) : ∀ (files : List String)
    (acc : List String) (y : String),
    y ∈ tagPhase fsys tags files acc ↔
      y ∈ acc ∨ (y ∈ files ∧ tags.any (fun t => fileHasTag fsys y t) = true) := by
  intro files
  induction files with
  | nil => intro acc y; simp [tagPhase]
  | cons f fs ih =>
    intro acc y
    have hstep : tagPhase fsys tags (f :: fs) acc =
        tagPhase fsys tags fs
          (if tags.any (fun t => fileHasTag fsys f t) then addUnique acc f else acc) := rfl
    rw [hstep, ih, List.mem_cons]
    by_cases hf : tags.any (fun t => fileHasTag fsys f t) = true
    · rw [if_pos hf, mem_addUnique]
      constructor
      · rintro ((hy | rfl) | ⟨hm, ha⟩)
        · exact Or.inl hy
        · exact Or.inr ⟨Or.inl rfl, hf⟩
        · exact Or.inr ⟨Or.inr hm, ha⟩
      · rintro (hy | ⟨rfl | hm, ha⟩)
        · exact Or.inl (Or.inl hy)
        · exact Or.inl (Or.inr rfl)
        · exact Or.inr ⟨hm, ha⟩
    · rw [if_neg hf]
      constructor
      · rintro (hy | ⟨hm, ha⟩)
        · exact Or.inl hy
        · exact Or.inr ⟨Or.inr hm, ha⟩
      · rintro (hy | ⟨rfl | hm, ha⟩)
        · exact Or.inl hy
        · exact absurd ha hf
        · exact Or.inr ⟨hm, ha⟩

/-- The inclusion-tag walk keeps the matched list duplicate-free. -/
theorem nodup_tagPhase (fsys : FS) (tags : List String) : ∀ (files : List String)
    (acc : List String), acc.Nodup → (tagPhase fsys tags files acc).Nodup := by
  intro files
  induction files with
  | nil => intro acc h; exact h
  | cons f fs ih =>
    intro acc h
    have hstep : tagPhase fsys tags (f :: fs) acc =
        tagPhase fsys tags fs
          (if tags.any (fun t => fileHasTag fsys f t) then addUnique acc f else acc) := rfl
    rw [hstep]
    apply ih
    split
    · exact nodup_addUnique h
    · exact h

/-- Membership in the candidate set: some inclusion glob resolves to the
path, or the path lies in the ignore-filtered universe and carries some
inclusion tag. -/
theorem mem_matchedFiles {argv : Argv} {fsys : FS} {y : String} :
    y ∈ matchedFiles argv fsys ↔
      (∃ g ∈ inclusionGlobs argv, y ∈ globResolve fsys (effGlob g)) ∨
      (y ∈ accessibleFiles argv fsys ∧
        (inclusionTags argv).any (fun t => fileHasTag fsys y t) = true) := by
  unfold matchedFiles globPhase
  rw [mem_tagPhase, mem_globPhase_fold]
  simp

/-- The candidate set is duplicate-free. -/
theorem nodup_matchedFiles (argv : Argv) (fsys : FS) :
    (matchedFiles argv fsys).Nodup := by
  unfold matchedFiles globPhase
  exact nodup_tagPhase fsys _ _ _
    (nodup_globPhase_fold fsys _ _ (by simp))

/-- Claim C6 — the final selection never lists a path twice, however many
inclusion globs and inclusion tags matched it. -/
theorem clop_final_selection_has_no_duplicates (argv : Argv) (fsys : FS) :
    (finalSelection argv fsys).Nodup := by
  have h := nodup_matchedFiles argv fsys
  unfold finalSelection
  by_cases hg : (exclusionGlobs argv).isEmpty <;>
    by_cases ht : (exclusionTags argv).isEmpty <;>
      simp [hg, ht, h, List.Nodup.filter]

/-- On an association list with duplicate-free paths, `find?` by path is
invariant under permutation of the entries. -/
theorem find?_entry_perm {l l' : List FileEntry} (h : l.Perm l') :
    (l.map FileEntry.path).Nodup → ∀ p : String,
    l.find? (fun e => e.path == p) = l'.find? (fun e => e.path == p) := by
  induction h with
  | nil => intro _ _; rfl
  | cons x h ih =>
    intro hn p
    simp only [List.map_cons, List.nodup_cons] at hn
    cases hx : (x.path == p) <;>
      simp [List.find?_cons, hx, ih hn.2 p]
  | swap x y l =>
    intro hn p
    have hyx : y.path ≠ x.path := by
      simp only [List.map_cons, List.nodup_cons, List.mem_cons] at hn
      exact fun e => hn.1 (Or.inl e)
    cases hx : (x.path == p) <;> cases hy : (y.path == p) <;>
      simp [List.find?_cons, hx, hy]
    exact absurd (by rw [eq_of_beq hy, eq_of_beq hx]) hyx
  | trans h1 h2 ih1 ih2 =>
    intro hn p
    rw [ih1 hn p, ih2 (((h1.map FileEntry.path).nodup_iff).mp hn) p]

/-- Reading a file is invariant under permutation of a duplicate-free
snapshot. -/
theorem readFile_perm {fsA fsB : FS} (h : fsA.files.Perm fsB.files)
    (hn : (fsA.files.map FileEntry.path).Nodup) (p : String) :
    readFile fsA p = readFile fsB p := by
  unfold readFile
  rw [find?_entry_perm h hn p]

/-- The tag test is invariant under permutation of a duplicate-free
snapshot. -/
theorem fileHasTag_perm {fsA fsB : FS} (h : fsA.files.Perm fsB.files)
    (hn : (fsA.files.map FileEntry.path).Nodup) (p tag : String) :
    fileHasTag fsA p tag = fileHasTag fsB p tag := by
  unfold fileHasTag
  rw [readFile_perm h hn p]

/-- Membership in the final selection, spelt out along the pipeline: the path
is a candidate, it is not in the batched exclusion-glob resolution (when
exclusion globs were given), and it carries no exclusion tag (when exclusion
tags were given). -/
theorem mem_finalSelection {argv : Argv} {fsys : FS} {y : String} :
    y ∈ finalSelection argv fsys ↔
      y ∈ matchedFiles argv fsys ∧
      ((exclusionGlobs argv).isEmpty = true ∨
        y ∉ exclusionGlobSet fsys (exclusionGlobs argv)) ∧
      ((exclusionTags argv).isEmpty = true ∨
        (exclusionTags argv).any (fun t => fileHasTag fsys y t) = false) := by
  unfold finalSelection
  by_cases hg : (exclusionGlobs argv).isEmpty <;>
    by_cases ht : (exclusionTags argv).isEmpty <;>
      simp [hg, ht, List.mem_filter, and_comm]

/-- Claim C3, amended — what determinism the code actually provides: on a
duplicate-free snapshot, the final file SET is invariant under permutation of
the enumeration order (two runs over the same snapshot select the same
files), but no order normalisation is applied, so the list order and hence
the aggregated buffer follow the glob-then-tag insertion order of the
enumeration (see the counterexample for the order dependence). -/
theorem clop_final_set_enumeration_invariant (argv : Argv) (fsA fsB : FS)
    (hg : fsA.gitignore = fsB.gitignore) (h : fsA.files.Perm fsB.files)
    (hn : (fsA.files.map FileEntry.path).Nodup) (x : String) :
    x ∈ finalSelection argv fsA ↔ x ∈ finalSelection argv fsB := by
  have hmap : ∀ y : String,
      y ∈ fsA.files.map FileEntry.path ↔ y ∈ fsB.files.map FileEntry.path :=
    fun y => (h.map FileEntry.path).mem_iff
  have hres : ∀ (pat : String) (y : String),
      y ∈ globResolve fsA pat ↔ y ∈ globResolve fsB pat := by
    intro pat y
    unfold globResolve
    rw [List.mem_filter, List.mem_filter, hmap y]
  have hig : igRulesOf argv fsA = igRulesOf argv fsB := by
    unfold igRulesOf
    rw [hg]
  have hacc : ∀ y : String,
      y ∈ accessibleFiles argv fsA ↔ y ∈ accessibleFiles argv fsB := by
    intro y
    unfold accessibleFiles universeFiles
    rw [List.mem_filter, List.mem_filter, List.mem_filter, List.mem_filter,
      hmap y, hig]
  have htag : ∀ p tag : String, fileHasTag fsA p tag = fileHasTag fsB p tag :=
    fileHasTag_perm h hn
  have hanyI : (inclusionTags argv).any (fun t => fileHasTag fsA x t) =
      (inclusionTags argv).any (fun t => fileHasTag fsB x t) := by
    simp only [htag]
  have hanyE : (exclusionTags argv).any (fun t => fileHasTag fsA x t) =
      (exclusionTags argv).any (fun t => fileHasTag fsB x t) := by
    simp only [htag]
  have hexc : x ∈ exclusionGlobSet fsA (exclusionGlobs argv) ↔
      x ∈ exclusionGlobSet fsB (exclusionGlobs argv) := hres _ x
  rw [mem_finalSelection, mem_finalSelection, mem_matchedFiles,
    mem_matchedFiles, hanyI, hanyE]
  exact and_congr
    (or_congr (exists_congr fun g => and_congr Iff.rfl (hres _ x))
      (and_congr (hacc x) Iff.rfl))
    (and_congr (or_congr Iff.rfl (not_congr hexc)) Iff.rfl)

/-- Witness for the amended C3 at the two concrete enumerations of the same
snapshot. -/
theorem clop_final_set_enumeration_invariant_witness :
    fsC3a.files.Perm fsC3b.files ∧ (fsC3a.files.map FileEntry.path).Nodup ∧
    ("a.txt" ∈ finalSelection argvC3 fsC3a ↔
      "a.txt" ∈ finalSelection argvC3 fsC3b) :=
  ⟨List.Perm.swap entB entA [], by decide,
    clop_final_set_enumeration_invariant argvC3 fsC3a fsC3b rfl
      (List.Perm.swap entB entA []) (by decide) "a.txt"⟩
